import Mathlib

/-!
# Verification of the access-control core of the script-assist backend

Shallow embedding of the two security-critical subsystems:

* the Redis-backed sliding-window rate limiter
  (`RedisRateLimitGuard` in `src/common/guards/redis-rate-limit.guard.ts`,
  shipped as `src/unnamed/part_005`), and
* the refresh-token rotation engine
  (`AuthService` in `src/modules/auth/auth.service.ts` together with the
  `RefreshToken` entity).

Conventions of the embedding:

* JavaScript timestamps (`Date.now()`, `Date` columns) are integers in
  milliseconds, modelled as `Int`.
* The Redis sorted set used by the limiter stores one member per request,
  where the member is the textual timestamp and the score is the timestamp;
  two requests with the same millisecond timestamp therefore collapse to one
  member, exactly as `ZADD key now now` does.  The set is modelled as a
  `Finset Int` of scores.
* `crypto.createHash("sha256")` is cryptographic and is modelled as an
  explicit function parameter `hashToken : String -> String`; theorems that
  need collision freedom state it as a hypothesis on the concrete tokens
  involved.
* Randomness (`crypto.randomBytes`, `crypto.randomUUID`) and generated
  primary keys are modelled as explicit inputs (`freshToken`, `freshFamily`,
  `freshId`).
* Thrown `HttpException` / `UnauthorizedException` values are modelled with
  `Except` carrying the HTTP status code and the message string of the
  source.
-/

/-! ## Part 1: the distributed rate limiter (`RedisRateLimitGuard`) -/

/-- Rate limit configuration, from the `RateLimitConfig` interface:
`points` (requests allowed), `duration` (window seconds), optional
`blockDuration` (defaults to `duration` at every use site via
`config.blockDuration || config.duration`). The optional key-space option
of the interface does not affect admission decisions and is omitted. -/
structure RateLimitConfig where
  points : Int
  duration : Int
  blockDuration : Option Int
deriving DecidableEq

/-- State of one rate-limit key in Redis: the sorted set of request
timestamps (member = score = the millisecond timestamp) and the TTL last
installed by `EXPIRE` (`none` before the first admit). -/
structure ZSetState where
  entries : Finset Int
  expiry : Option Int
deriving DecidableEq

/-- The Lua script executed by `checkRateLimit` via `redis.eval`, verbatim:

1. `ZREMRANGEBYSCORE key -inf windowStart` (drops scores `<= windowStart`),
2. `count = ZCARD key`,
3. if `count < limit` then `ZADD key now now`, `EXPIRE key ttl`,
   return `count + 1`,
4. else return `count`.

Returns the new key state and the script result. -/
def luaRateLimit (st : ZSetState) (now windowStart limit ttl : Int) :
    ZSetState × Int :=
  let pruned := st.entries.filter (fun t => windowStart < t)
  let count : Int := pruned.card
  if count < limit then
    (⟨insert now pruned, some ttl⟩, count + 1)
  else
    (⟨pruned, st.expiry⟩, count)

/-- Embeds `RedisRateLimitGuard.checkRateLimit`: computes
`windowStart = now - duration * 1000`, runs the Lua script, and decides
`allowed = count <= config.points`.  The Redis round trip may fail, which
the source rethrows to `canActivate`; `redisUp = false` models the store
being unreachable. -/
def checkRateLimit (st : ZSetState) (redisUp : Bool) (now : Int)
    (config : RateLimitConfig) : Except Unit (ZSetState × Bool) :=
  let windowStart := now - config.duration * 1000
  if redisUp then
    let (st', count) := luaRateLimit st now windowStart config.points
      (config.blockDuration.getD config.duration)
    .ok (st', count ≤ config.points)
  else
    .error ()

/-- Outcome of the guard as seen by the HTTP layer. -/
inductive GuardOutcome where
  | allowed : GuardOutcome
  | http429 : Int → GuardOutcome
deriving DecidableEq

/-- Embeds `RedisRateLimitGuard.canActivate` (admission part): runs
`checkRateLimit`; when not allowed it reads the TTL of the key
(`ttlRead` models the `redis.ttl(key)` round trip) and throws HTTP 429 with
`retryAfter = ttl` when positive, else `blockDuration || duration`; the
surrounding catch admits the request whenever the failure is not the 429
`HttpException` itself (fail open). -/
def canActivate (st : ZSetState) (redisUp : Bool) (now : Int)
    (config : RateLimitConfig) (ttlRead : Int) : ZSetState × GuardOutcome :=
  match checkRateLimit st redisUp now config with
  | .error _ => (st, .allowed)
  | .ok (st', true) => (st', .allowed)
  | .ok (st', false) =>
      (st', .http429 (if ttlRead > 0 then ttlRead
                      else config.blockDuration.getD config.duration))

/-- Run a sequence of requests (given by their timestamps) through the
guard, collecting each admission decision. -/
def runRequests (st : ZSetState) (config : RateLimitConfig)
    (ttlRead : Int) : List Int → ZSetState × List GuardOutcome
  | [] => (st, [])
  | now :: rest =>
      let (st', out) := canActivate st true now config ttlRead
      let (st'', outs) := runRequests st' config ttlRead rest
      (st'', out :: outs)

/-! ## Part 1b: caller-identity resolution (`getIdentifier` / `hashString`) -/

/-- JavaScript `ToInt32`: wrap an integer into `[-2^31, 2^31)`. -/
def toInt32 (n : Int) : Int :=
  (n + 2 ^ 31) % 2 ^ 32 - 2 ^ 31

/-- One iteration of the loop in `hashString`:
`hash = ((hash << 5) - hash) + charCode; hash = hash & hash`.
The shift operates on the 32-bit coercion of `hash`; the final `& hash`
coerces the sum back to a signed 32-bit integer. -/
def hashStringStep (h : Int) (c : Int) : Int :=
  toInt32 (toInt32 (h * 32) - h + c)

/-- Character table of JavaScript `Number.prototype.toString(36)`. -/
def base36Char (n : Nat) : Char :=
  if n < 10 then Char.ofNat (48 + n) else Char.ofNat (87 + n)

/-- Digits of `n` in base 36, most significant first (fuel-driven so that
the kernel can evaluate it; `fuel >= n + 1` always suffices). -/
def base36Digits (fuel n : Nat) : List Char :=
  match fuel with
  | 0 => []
  | fuel' + 1 =>
      if n < 36 then [base36Char n]
      else base36Digits fuel' (n / 36) ++ [base36Char (n % 36)]

/-- Embeds `RedisRateLimitGuard.hashString`: the 32-bit string hash, then
`Math.abs(hash).toString(36)`. -/
def hashString (s : String) : String :=
  let h := s.data.foldl (fun h c => hashStringStep h c.toNat) 0
  let n := h.natAbs
  String.mk (base36Digits (n + 1) n)

/-- The request fields consulted by `getIdentifier`.  A JavaScript header
that is absent is `none`; present-but-empty strings matter because `||`
treats `""` as falsy. -/
structure Request where
  userId : Option String
  apiKey : Option String
  xForwardedFor : Option String
  xRealIp : Option String
  ip : Option String
  remoteAddress : Option String
deriving DecidableEq

/-- JavaScript truthiness for an optional string: `none` and `""` are
falsy. -/
def jsTruthy : Option String → Bool
  | none => false
  | some s => !(s == "")

/-- JavaScript `a || b` over optional strings. -/
def jsOr (a b : Option String) : Option String :=
  if jsTruthy a then a else b

/-- The IP fallback chain of `getIdentifier`:
`x-forwarded-for` (first comma-separated item, trimmed) `||` `x-real-ip`
`||` `request.ip` `||` `request.connection.remoteAddress` `||`
`"unknown"`. -/
def resolveIp (r : Request) : String :=
  let xff := r.xForwardedFor.map (fun s => ((s.splitOn ",").headD "").trim)
  ((jsOr xff (jsOr r.xRealIp (jsOr r.ip r.remoteAddress))).getD
    "unknown")

/-- Embeds `RedisRateLimitGuard.getIdentifier`: authenticated user id first
(used raw, prefixed `user:`), then the api key header (hashed), then the
resolved IP (hashed).  The source guards each branch with JavaScript
truthiness (`if (request.user?.id)`, `if (apiKey)`). -/
def getIdentifier (r : Request) : String :=
  if jsTruthy r.userId then "user:" ++ r.userId.getD ""
  else if jsTruthy r.apiKey then "apikey:" ++ hashString (r.apiKey.getD "")
  else "ip:" ++ hashString (resolveIp r)

/-! ## Part 2: the refresh-token rotation engine (`AuthService`) -/

/-- The source constant `AuthService.refreshTokenExpiry` is 7 days in
seconds; `expiresAt` is
`now` advanced by that many seconds, i.e. `604800000` milliseconds. -/
def refreshTokenExpiryMs : Int := 7 * 24 * 60 * 60 * 1000

/-- One row of the `refresh_tokens` table (`RefreshToken` entity). -/
structure RefreshTokenRow where
  id : Nat
  tokenHash : String
  userId : String
  expiresAt : Int
  isRevoked : Bool
  tokenFamily : String
  replacedByToken : Option String
  userAgent : Option String
  ipAddress : Option String
  createdAt : Int
  revokedAt : Option Int
deriving DecidableEq

/-- Embeds `RefreshToken.isExpired()`: `expiresAt <= new Date()`. -/
def RefreshTokenRow.isExpired (r : RefreshTokenRow) (now : Int) : Bool :=
  decide (r.expiresAt ≤ now)

/-- Embeds `RefreshToken.isValid()`: `!isRevoked && expiresAt > new Date()`. -/
def RefreshTokenRow.isValid (r : RefreshTokenRow) (now : Int) : Bool :=
  !r.isRevoked && decide (now < r.expiresAt)

/-- The table is a list of rows; `findOne({ where: { tokenHash } })` is a
lookup by the uniqueness-constrained hash column. -/
def findTokenByHash (db : List RefreshTokenRow) (h : String) :
    Option RefreshTokenRow :=
  db.find? (fun r => r.tokenHash == h)

/-- Embeds `repository.save` on an entity that already has a primary key:
overwrite the row with that id, keep everything else. -/
def saveExisting (db : List RefreshTokenRow) (r : RefreshTokenRow) :
    List RefreshTokenRow :=
  db.map (fun x => if x.id == r.id then r else x)

/-- Row transformer of `revokeTokenFamily`, i.e. of
`update({ tokenFamily, isRevoked: false }, { isRevoked: true, revokedAt: new Date() })`:
only rows of the family that are still unrevoked are touched. -/
def familyRevokeRow (fam : String) (now : Int) (r : RefreshTokenRow) :
    RefreshTokenRow :=
  if r.tokenFamily == fam && !r.isRevoked then
    { r with isRevoked := true, revokedAt := some now }
  else r

/-- Embeds `AuthService.revokeTokenFamily`. -/
def revokeTokenFamily (db : List RefreshTokenRow) (fam : String)
    (now : Int) : List RefreshTokenRow :=
  db.map (familyRevokeRow fam now)

/-- Row transformer of `revokeAllUserTokens`, i.e. of
`update({ userId, isRevoked: false }, { isRevoked: true, revokedAt: new Date() })`. -/
def userRevokeRow (uid : String) (now : Int) (r : RefreshTokenRow) :
    RefreshTokenRow :=
  if r.userId == uid && !r.isRevoked then
    { r with isRevoked := true, revokedAt := some now }
  else r

/-- Embeds `AuthService.revokeAllUserTokens` (logout from all devices). -/
def revokeAllUserTokens (db : List RefreshTokenRow) (uid : String)
    (now : Int) : List RefreshTokenRow :=
  db.map (userRevokeRow uid now)

/-- An `UnauthorizedException` as seen over HTTP: status and message. -/
structure HttpError where
  status : Nat
  message : String
deriving DecidableEq

/-- The thrown `UnauthorizedException("Invalid refresh token")` (token
not found). -/
def invalidTokenError : HttpError := ⟨401, "Invalid refresh token"⟩

/-- The thrown
`UnauthorizedException("Token has been revoked. Please login again.")`
(reuse detected). -/
def revokedTokenError : HttpError :=
  ⟨401, "Token has been revoked. Please login again."⟩

/-- The thrown `UnauthorizedException("Refresh token expired")`. -/
def expiredTokenError : HttpError := ⟨401, "Refresh token expired"⟩

/-- Embeds `AuthService.generateTokenPair`: appends a fresh unrevoked row
whose
hash is `hashToken freshToken`, in the given family when one is passed
(rotation) or in the fresh random family (login/register), expiring
`refreshTokenExpiry` seconds from now.  Returns the new table and the
plaintext refresh token handed to the client.  The stateless JWT access
token does not touch the store and is not modelled. -/
def generateTokenPair (hashToken : String → String)
    (db : List RefreshTokenRow) (userId : String)
    (tokenFamily : Option String) (now : Int) (freshToken : String)
    (freshId : Nat) (freshFamily : String)
    (ipAddress userAgent : Option String) :
    List RefreshTokenRow × String :=
  let tokenHash := hashToken freshToken
  let family := tokenFamily.getD freshFamily
  let expiresAt := now + refreshTokenExpiryMs
  (db ++ [{ id := freshId, tokenHash := tokenHash, userId := userId,
            expiresAt := expiresAt, isRevoked := false,
            tokenFamily := family, replacedByToken := none,
            userAgent := userAgent, ipAddress := ipAddress,
            createdAt := now, revokedAt := none }],
   freshToken)

/-- Embeds `AuthService.refreshTokens`, the `Rotate` operation:
1. hash the presented token and look the row up;
2. not found: 401 `invalidTokenError`;
3. found and `isRevoked`: revoke the whole family, 401 `revokedTokenError`;
4. found and `isExpired()`: 401 `expiredTokenError`;
5. otherwise: create the successor row in the same family
   (`generateTokenPair`), then save the presented row as revoked with
   `revokedAt = now` and `replacedByToken` set to the successor hash.
Returns the table after the call and the outcome. -/
def refreshTokens (hashToken : String → String)
    (db : List RefreshTokenRow) (presented : String) (now : Int)
    (freshToken : String) (freshId : Nat) (freshFamily : String)
    (ipAddress userAgent : Option String) :
    List RefreshTokenRow × Except HttpError String :=
  let tokenHash := hashToken presented
  match findTokenByHash db tokenHash with
  | none => (db, .error invalidTokenError)
  | some storedToken =>
      if storedToken.isRevoked then
        (revokeTokenFamily db storedToken.tokenFamily now,
         .error revokedTokenError)
      else if storedToken.isExpired now then
        (db, .error expiredTokenError)
      else
        let (db1, newTok) := generateTokenPair hashToken db
          storedToken.userId (some storedToken.tokenFamily) now freshToken
          freshId freshFamily ipAddress userAgent
        let db2 := saveExisting db1
          { storedToken with isRevoked := true, revokedAt := some now,
                             replacedByToken := some (hashToken newTok) }
        (db2, .ok newTok)

/-- Embeds `AuthService.logout`, the `Revoke` operation: look the
presented token
up by hash; when absent do nothing; when present save it back revoked with
`revokedAt = now` (the family is untouched and `replacedByToken` keeps its
value). -/
def logout (hashToken : String → String) (db : List RefreshTokenRow)
    (refreshToken : String) (now : Int) : List RefreshTokenRow :=
  match findTokenByHash db (hashToken refreshToken) with
  | none => db
  | some storedToken =>
      saveExisting db
        { storedToken with isRevoked := true, revokedAt := some now }

/-- The `Issue` operation (the login/register path): `generateTokenPair`
with no existing
family, so the fresh random family identifier is used. -/
def issueToken (hashToken : String → String) (db : List RefreshTokenRow)
    (userId : String) (now : Int) (freshToken : String) (freshId : Nat)
    (freshFamily : String) (ipAddress userAgent : Option String) :
    List RefreshTokenRow × String :=
  generateTokenPair hashToken db userId none now freshToken freshId
    freshFamily ipAddress userAgent

/-- Number of unrevoked rows of one family. -/
def countUnrevokedInFamily (db : List RefreshTokenRow) (fam : String) :
    Nat :=
  db.countP (fun r => r.tokenFamily == fam && !r.isRevoked)

/-- The per-family head-uniqueness invariant: at most one unrevoked row
per token family. -/
def headUnique (db : List RefreshTokenRow) : Prop :=
  ∀ fam, countUnrevokedInFamily db fam ≤ 1

/-- Primary keys are unique in the table. -/
def nodupIds (db : List RefreshTokenRow) : Prop :=
  (db.map (fun r => r.id)).Nodup

/-! ## Part 2b: interleaving model of concurrent `Rotate` calls

`refreshTokens` suspends at each repository round trip: the `findOne`
read, the `update` of `revokeTokenFamily`, the `save` of the successor row
inside `generateTokenPair`, and the `save` of the revoked presented row.
Between any two of those awaits another in-flight call may run.  Each
suspension-to-suspension segment below is one atomic step built from the
very same operations as `refreshTokens`. -/

deriving instance DecidableEq for Except

/-- Program counter of one in-flight `Rotate` call. -/
inductive RotatePC where
  | start : RotatePC
  | reuseDetected : String → RotatePC
  | afterFind : RefreshTokenRow → RotatePC
  | afterInsert : RefreshTokenRow → String → RotatePC
  | finished : Except HttpError String → RotatePC
deriving DecidableEq

/-- Per-call inputs of one `Rotate` call. -/
structure RotateParams where
  presented : String
  now : Int
  freshToken : String
  freshId : Nat
  freshFamily : String
  ipAddress : Option String
  userAgent : Option String
deriving DecidableEq

/-- One atomic step of `refreshTokens`:
`start` performs the `findOne` plus the synchronous checks after it;
`reuseDetected` performs the family-revocation update and throws;
`afterFind` performs the successor `save` of `generateTokenPair`;
`afterInsert` performs the revoking `save` of the presented row. -/
def rotateStep (hashToken : String → String) (p : RotateParams)
    (db : List RefreshTokenRow) : RotatePC → List RefreshTokenRow × RotatePC
  | .start =>
      match findTokenByHash db (hashToken p.presented) with
      | none => (db, .finished (.error invalidTokenError))
      | some storedToken =>
          if storedToken.isRevoked then
            (db, .reuseDetected storedToken.tokenFamily)
          else if storedToken.isExpired p.now then
            (db, .finished (.error expiredTokenError))
          else (db, .afterFind storedToken)
  | .reuseDetected fam =>
      (revokeTokenFamily db fam p.now, .finished (.error revokedTokenError))
  | .afterFind storedToken =>
      let (db1, newTok) := generateTokenPair hashToken db
        storedToken.userId (some storedToken.tokenFamily) p.now
        p.freshToken p.freshId p.freshFamily p.ipAddress p.userAgent
      (db1, .afterInsert storedToken newTok)
  | .afterInsert storedToken newTok =>
      (saveExisting db
        { storedToken with isRevoked := true, revokedAt := some p.now,
                           replacedByToken := some (hashToken newTok) },
       .finished (.ok newTok))
  | .finished r => (db, .finished r)

/-- Interleaved execution of two `Rotate` calls A and B: the schedule says
which call performs its next atomic step. -/
def runSchedule (hashToken : String → String) (pA pB : RotateParams) :
    List Bool → List RefreshTokenRow × RotatePC × RotatePC →
    List RefreshTokenRow × RotatePC × RotatePC
  | [], s => s
  | c :: rest, (db, a, b) =>
      if c then
        let (db', a') := rotateStep hashToken pA db a
        runSchedule hashToken pA pB rest (db', a', b)
      else
        let (db', b') := rotateStep hashToken pB db b
        runSchedule hashToken pA pB rest (db', a, b')

/-! ## Test fixtures: concrete instances used by counterexamples and
witnesses.  `testHash` stands in for sha256: it is injective and lets the
kernel evaluate the token engine on concrete tokens. -/

/-- Concrete injective stand-in for the sha256 hex digest. -/
def testHash (s : String) : String := "#" ++ s

/-- A live refresh token row: hash of `"t0"`, family `famF`, not revoked,
expiring far in the future. -/
def sampleValidRow : RefreshTokenRow :=
  { id := 0, tokenHash := "#t0", userId := "u1", expiresAt := 1000000000,
    isRevoked := false, tokenFamily := "famF", replacedByToken := none,
    userAgent := none, ipAddress := none, createdAt := 0, revokedAt := none }

/-- The same row already revoked (an already-rotated token). -/
def sampleRevokedRow : RefreshTokenRow :=
  { sampleValidRow with isRevoked := true, revokedAt := some 10 }

/-- The same row expired but never revoked. -/
def sampleExpiredRow : RefreshTokenRow :=
  { sampleValidRow with expiresAt := 5 }

/-- The same row both revoked and expired. -/
def sampleRevokedExpiredRow : RefreshTokenRow :=
  { sampleValidRow with isRevoked := true, revokedAt := some 3,
                        expiresAt := 5 }

/-- Inputs of concurrent `Rotate` call A: presents `"t0"`, mints `"t1a"`. -/
def paramsA : RotateParams :=
  { presented := "t0", now := 1000, freshToken := "t1a", freshId := 1,
    freshFamily := "famA", ipAddress := none, userAgent := none }

/-- Inputs of concurrent `Rotate` call B: presents `"t0"`, mints `"t1b"`. -/
def paramsB : RotateParams :=
  { presented := "t0", now := 1000, freshToken := "t1b", freshId := 2,
    freshFamily := "famB", ipAddress := none, userAgent := none }

/-! ## Theorems -/

/-- Helper: the Lua script never reports more than `limit` when the key
already holds at most `limit` entries, because entries are only added
while the count is strictly below the limit. -/
theorem luaRateLimit_result_le (st : ZSetState) (now ws limit ttl : Int)
    (h : (st.entries.card : Int) ≤ limit) :
    (luaRateLimit st now ws limit ttl).2 ≤ limit := by
  unfold luaRateLimit
  have hcard : ((st.entries.filter (fun t => ws < t)).card : Int)
      ≤ (st.entries.card : Int) := by
    exact_mod_cast Finset.card_filter_le st.entries _
  dsimp only
  split
  · next hlt => omega
  · next hge => omega

/-- Helper: under the same bound the guard always decides `allowed`. -/
theorem checkRateLimit_never_rejects (st : ZSetState) (now : Int)
    (config : RateLimitConfig)
    (h : (st.entries.card : Int) ≤ config.points) :
    checkRateLimit st true now config
      = .ok ((luaRateLimit st now (now - config.duration * 1000)
              config.points (config.blockDuration.getD config.duration)).1,
             true) := by
  unfold checkRateLimit
  have := luaRateLimit_result_le st now (now - config.duration * 1000)
    config.points (config.blockDuration.getD config.duration) h
  simp only [if_pos]
  rw [decide_eq_true this]


/-- C1: code bug.  Under the policy `points = 5, duration = 60s`, six
requests from one identity inside one 60-second window are ALL admitted:
the Lua script never stores more than `points` entries, so its result
never exceeds `points`, and the decision of the guard, namely
`count <= config.points`,
is always true.  The sixth request, which the claim (and the test plan
shipped with the repository) says must be rejected with HTTP 429, is
admitted. -/
theorem sixth_request_admitted :
    (runRequests ⟨∅, none⟩ ⟨5, 60, none⟩ 30
       [1000000, 1001000, 1002000, 1003000, 1004000, 1005000]).2
      = [.allowed, .allowed, .allowed, .allowed, .allowed, .allowed] := by
  decide

/-- Helper: an admission decision of the live guard is always `allowed`
whenever the key holds at most `points` entries (which every reachable
state does, since the script only ever adds entries while strictly below
the limit). -/
theorem canActivate_always_allows (st : ZSetState) (now : Int)
    (config : RateLimitConfig) (ttlRead : Int)
    (h : (st.entries.card : Int) ≤ config.points) :
    (canActivate st true now config ttlRead).2 = .allowed := by
  unfold canActivate
  rw [checkRateLimit_never_rejects st now config h]

/-- C5: fail-open rate limiting.  When the store round trip fails (Redis
unreachable, so `checkRateLimit` propagates the error instead of a
rate-limit decision), `canActivate` admits the request and leaves the key
untouched. -/
theorem canActivate_fail_open (st : ZSetState) (now : Int)
    (config : RateLimitConfig) (ttlRead : Int) :
    canActivate st false now config ttlRead = (st, .allowed) := rfl

set_option maxRecDepth 8192

/-- C7: counterexample.  For an authenticated request the store key
fragment is the raw subject id `user:alice`; it is not the hashed form,
so the raw identity value does appear in the store key. -/
theorem raw_user_id_in_key :
    getIdentifier
      { userId := some "alice", apiKey := none, xForwardedFor := none,
        xRealIp := none, ip := none, remoteAddress := none }
      = "user:alice"
    ∧ "user:alice" ≠ "user:" ++ hashString "alice" := by
  constructor
  · rfl
  · decide

/-- C7 amended: only the API-key and network-address identifiers are
hashed before entering the store key; the authenticated subject id is
used raw with a `user:` tag. -/
theorem getIdentifier_hashing (r : Request) :
    (∀ uid, r.userId = some uid → uid ≠ "" →
        getIdentifier r = "user:" ++ uid)
    ∧ (∀ key, jsTruthy r.userId = false → r.apiKey = some key → key ≠ "" →
        getIdentifier r = "apikey:" ++ hashString key)
    ∧ (jsTruthy r.userId = false → jsTruthy r.apiKey = false →
        getIdentifier r = "ip:" ++ hashString (resolveIp r)) := by
  refine ⟨?_, ?_, ?_⟩
  · intro uid hu hne
    have hb : (uid == "") = false := beq_eq_false_iff_ne.mpr hne
    unfold getIdentifier
    rw [hu]
    simp [jsTruthy, hb]
  · intro key hu hk hne
    have hb : (key == "") = false := beq_eq_false_iff_ne.mpr hne
    unfold getIdentifier
    rw [hu, hk]
    simp [jsTruthy, hb]
  · intro hu hk
    unfold getIdentifier
    rw [hu, hk]
    simp

/-- Witness for the amended C7 theorem at a concrete unauthenticated
request carrying only `request.ip`. -/
theorem getIdentifier_hashing_witness :
    jsTruthy (none : Option String) = false
    ∧ getIdentifier
        { userId := none, apiKey := none, xForwardedFor := none,
          xRealIp := none, ip := some "10.0.0.1", remoteAddress := none }
        = "ip:" ++ hashString "10.0.0.1" :=
  ⟨by decide,
   (getIdentifier_hashing
     { userId := none, apiKey := none, xForwardedFor := none,
       xRealIp := none, ip := some "10.0.0.1",
       remoteAddress := none }).2.2 (by decide) (by decide)⟩

/-- C9: logout with an unknown token is a silent no-op: when no stored row
matches the presented token hash, the table is returned unchanged and no
error is produced (the operation has no failure outcome at all). -/
theorem logout_unknown_token_noop (hashToken : String → String)
    (db : List RefreshTokenRow) (tok : String) (now : Int)
    (h : findTokenByHash db (hashToken tok) = none) :
    logout hashToken db tok now = db := by
  unfold logout
  rw [h]

/-- Witness for C9: logging out with `"zz"` against a table holding only
the hash of `"t0"` finds nothing and changes nothing. -/
theorem logout_unknown_token_noop_witness :
    findTokenByHash [sampleValidRow] (testHash "zz") = none
    ∧ logout testHash [sampleValidRow] "zz" 77 = [sampleValidRow] :=
  ⟨by decide,
   logout_unknown_token_noop testHash [sampleValidRow] "zz" 77 (by decide)⟩

/-- C4: counterexample.  The three refresh failures do carry three
pairwise different client-visible messages, so the responses are not
identical across the cases: an unknown token yields
`Invalid refresh token`, a revoked token yields
`Token has been revoked. Please login again.`, and an expired token
yields `Refresh token expired`. -/
theorem refresh_error_messages_differ :
    (refreshTokens testHash [] "t0" 1000 "t9" 9 "famZ" none none).2
      = .error invalidTokenError
    ∧ (refreshTokens testHash [sampleRevokedRow] "t0" 1000 "t9" 9 "famZ"
        none none).2 = .error revokedTokenError
    ∧ (refreshTokens testHash [sampleExpiredRow] "t0" 1000 "t9" 9 "famZ"
        none none).2 = .error expiredTokenError
    ∧ invalidTokenError.message ≠ revokedTokenError.message
    ∧ invalidTokenError.message ≠ expiredTokenError.message
    ∧ revokedTokenError.message ≠ expiredTokenError.message := by
  decide

/-- C4 amended: what is uniform across the three refresh failures is the
HTTP status: every error outcome of `refreshTokens` is a 401. -/
theorem refresh_failures_all_401 (hashToken : String → String)
    (db : List RefreshTokenRow) (presented : String) (now : Int)
    (freshToken : String) (freshId : Nat) (freshFamily : String)
    (ipAddress userAgent : Option String) (e : HttpError)
    (h : (refreshTokens hashToken db presented now freshToken freshId
            freshFamily ipAddress userAgent).2 = .error e) :
    e.status = 401 := by
  unfold refreshTokens at h
  dsimp only at h
  rcases hf : findTokenByHash db (hashToken presented) with _ | st
  · rw [hf] at h
    simp only at h
    cases h
    rfl
  · rw [hf] at h
    simp only at h
    split at h
    · cases h
      rfl
    · split at h
      · cases h
        rfl
      · simp only at h
        cases h

/-- Witness for the amended C4 theorem: the unknown-token failure on an
empty table is a 401. -/
theorem refresh_failures_all_401_witness :
    (refreshTokens testHash [] "t0" 1000 "t9" 9 "famZ" none none).2
      = .error invalidTokenError
    ∧ invalidTokenError.status = 401 :=
  ⟨by decide,
   refresh_failures_all_401 testHash [] "t0" 1000 "t9" 9 "famZ" none none
     invalidTokenError (by decide)⟩

/-- C6: counterexample.  A token that is both expired and already revoked
does not fail with the expired error: `refreshTokens` checks `isRevoked`
before `isExpired()`, so it fails with the reuse error (and revokes the
family as a side effect). -/
theorem expired_revoked_token_fails_as_reused :
    (refreshTokens testHash [sampleRevokedExpiredRow] "t0" 1000 "t9" 9
       "famZ" none none).2 = .error revokedTokenError
    ∧ revokedTokenError ≠ expiredTokenError := by
  decide

/-- C6 amended: the expiry failure is reached only after the revoked
check: a stored token that is expired AND still unrevoked always fails
with `Refresh token expired`, leaving the table unchanged. -/
theorem rotate_expired_unrevoked (hashToken : String → String)
    (db : List RefreshTokenRow) (presented : String) (now : Int)
    (freshToken : String) (freshId : Nat) (freshFamily : String)
    (ipAddress userAgent : Option String) (st : RefreshTokenRow)
    (hfind : findTokenByHash db (hashToken presented) = some st)
    (hrev : st.isRevoked = false)
    (hexp : st.isExpired now = true) :
    refreshTokens hashToken db presented now freshToken freshId
      freshFamily ipAddress userAgent = (db, .error expiredTokenError) := by
  unfold refreshTokens
  dsimp only
  rw [hfind]
  simp only [hrev, hexp]
  rfl

/-- Witness for the amended C6 theorem: an expired, never-revoked token
fails with the expired error. -/
theorem rotate_expired_unrevoked_witness :
    findTokenByHash [sampleExpiredRow] (testHash "t0") = some sampleExpiredRow
    ∧ sampleExpiredRow.isRevoked = false
    ∧ sampleExpiredRow.isExpired 1000 = true
    ∧ refreshTokens testHash [sampleExpiredRow] "t0" 1000 "t9" 9 "famZ"
        none none = ([sampleExpiredRow], .error expiredTokenError) :=
  ⟨by decide, by decide, by decide,
   rotate_expired_unrevoked testHash [sampleExpiredRow] "t0" 1000 "t9" 9
     "famZ" none none sampleExpiredRow (by decide) (by decide) (by decide)⟩

/-- Helper: running one `Rotate` call alone for three steps from `start`
is exactly `refreshTokens` — the step machine is the same code, cut at
its store round trips.  (Failing paths finish early; stepping a finished
call is a no-op.) -/
theorem rotateStep_serial_eq_refreshTokens (hashToken : String → String)
    (p : RotateParams) (db : List RefreshTokenRow) :
    (let s1 := rotateStep hashToken p db .start
     let s2 := rotateStep hashToken p s1.1 s1.2
     rotateStep hashToken p s2.1 s2.2)
      = ((refreshTokens hashToken db p.presented p.now p.freshToken
            p.freshId p.freshFamily p.ipAddress p.userAgent).1,
         .finished (refreshTokens hashToken db p.presented p.now
            p.freshToken p.freshId p.freshFamily p.ipAddress
            p.userAgent).2) := by
  unfold rotateStep refreshTokens
  dsimp only
  rcases hf : findTokenByHash db (hashToken p.presented) with _ | st
  · rfl
  · by_cases hr : st.isRevoked = true
    · simp [hr]
    · by_cases he : st.isExpired p.now = true
      · simp [hr, he]
      · simp [hr, he]

/-- C2: counterexample.  Two concurrent `Rotate` calls presenting the same
valid, unrotated token `"t0"`: under the interleaving where both perform
their `findOne` before either writes, BOTH calls succeed (`"t1a"` and
`"t1b"` are both minted), no reuse error is raised, and afterwards the
family holds TWO unrevoked tokens — the revocation is an unconditional
`save` after a separate read, not a conditional update, so the loser
never observes "zero rows affected". -/
theorem concurrent_rotate_both_succeed :
    (runSchedule testHash paramsA paramsB
        [true, false, true, true, false, false]
        ([sampleValidRow], .start, .start)).2
      = (.finished (.ok "t1a"), .finished (.ok "t1b"))
    ∧ countUnrevokedInFamily
        (runSchedule testHash paramsA paramsB
          [true, false, true, true, false, false]
          ([sampleValidRow], .start, .start)).1 "famF" = 2 := by
  decide

/-- C2 amended: the one-success/one-`TokenReused` outcome holds only when
the two calls do not interleave: run serially, the first call succeeds,
the second detects reuse, fails with the revoked-token error, and its
family-wide revocation leaves no unrevoked token in the family. -/
theorem serial_rotate_exactly_one_succeeds :
    (runSchedule testHash paramsA paramsB [true, true, true, false, false]
        ([sampleValidRow], .start, .start)).2
      = (.finished (.ok "t1a"), .finished (.error revokedTokenError))
    ∧ countUnrevokedInFamily
        (runSchedule testHash paramsA paramsB
          [true, true, true, false, false]
          ([sampleValidRow], .start, .start)).1 "famF" = 0 := by
  decide

/-- C3: single-use rotation, sequential.  From a table holding exactly the
token issued to `uid` (token `t0`, family `fam`), rotating with `t0`
succeeds and mints `t1` in the same family; a second sequential rotation
with `t0` fails with the revoked-token (reuse) error and leaves no
unrevoked token in the family; a subsequent rotation presenting `t1` then
also fails with the same reuse error.  The hypotheses say that the two
tokens have distinct hashes (sha256 collision freedom), that the
generated row ids differ, and that `t0` has not yet expired at the first
rotation. -/
theorem single_use_rotation (hashToken : String → String)
    (t0 t1 t2 t3 uid fam famB famC famD : String) (id0 id1 id2 id3 : Nat)
    (ip ua : Option String) (now0 now1 now2 now3 : Int)
    (hcol : hashToken t0 ≠ hashToken t1)
    (hid : id0 ≠ id1)
    (hexp : now1 < now0 + refreshTokenExpiryMs) :
    let db0 := (issueToken hashToken [] uid now0 t0 id0 fam ip ua).1
    let A := refreshTokens hashToken db0 t0 now1 t1 id1 famB ip ua
    let B := refreshTokens hashToken A.1 t0 now2 t2 id2 famC ip ua
    let C := refreshTokens hashToken B.1 t1 now3 t3 id3 famD ip ua
    A.2 = .ok t1
    ∧ (∃ r, findTokenByHash A.1 (hashToken t1) = some r
          ∧ r.tokenFamily = fam ∧ r.isRevoked = false)
    ∧ B.2 = .error revokedTokenError
    ∧ countUnrevokedInFamily B.1 fam = 0
    ∧ C.2 = .error revokedTokenError := by
  have hcolb : (hashToken t0 == hashToken t1) = false :=
    beq_eq_false_iff_ne.mpr hcol
  have hidb : (id1 == id0) = false :=
    beq_eq_false_iff_ne.mpr (Ne.symm hid)
  have hexpb : decide (now0 + refreshTokenExpiryMs ≤ now1) = false :=
    decide_eq_false (by omega)
  simp only [issueToken, generateTokenPair, refreshTokens, findTokenByHash,
    saveExisting, revokeTokenFamily, familyRevokeRow, countUnrevokedInFamily,
    RefreshTokenRow.isExpired, List.find?, List.map, List.countP,
    List.countP.go, List.nil_append, List.cons_append, List.append_nil,
    Option.getD, beq_self_eq_true, hcolb, hidb, hexpb]
  simp [hcolb, List.countP.go]

/-- Witness for C3 at concrete tokens, ids and times. -/
theorem single_use_rotation_witness :
    (testHash "t0" ≠ testHash "t1" ∧ (0 : Nat) ≠ 1
      ∧ (1 : Int) < 0 + refreshTokenExpiryMs)
    ∧ (let db0 := (issueToken testHash [] "u1" 0 "t0" 0 "famF" none none).1
       let A := refreshTokens testHash db0 "t0" 1 "t1" 1 "famB" none none
       let B := refreshTokens testHash A.1 "t0" 2 "t2" 2 "famC" none none
       let C := refreshTokens testHash B.1 "t1" 3 "t3" 3 "famD" none none
       A.2 = .ok "t1"
       ∧ (∃ r, findTokenByHash A.1 (testHash "t1") = some r
             ∧ r.tokenFamily = "famF" ∧ r.isRevoked = false)
       ∧ B.2 = .error revokedTokenError
       ∧ countUnrevokedInFamily B.1 "famF" = 0
       ∧ C.2 = .error revokedTokenError) :=
  ⟨⟨by decide, by decide, by decide⟩,
   single_use_rotation testHash "t0" "t1" "t2" "t3" "u1" "famF" "famB"
     "famC" "famD" 0 1 2 3 none none 0 1 2 3
     (by decide) (by decide) (by decide)⟩

/-- Helper: a successful `find?` splits the list around the found element. -/
theorem find?_split {α : Type} (p : α → Bool) (l : List α) (a : α)
    (h : l.find? p = some a) : ∃ l1 l2, l = l1 ++ a :: l2 := by
  induction l with
  | nil => simp [List.find?] at h
  | cons b bl ih =>
      rw [List.find?_cons] at h
      cases hpb : p b with
      | true =>
          rw [hpb] at h
          simp only [Option.some.injEq] at h
          exact ⟨[], bl, by simp [h]⟩
      | false =>
          rw [hpb] at h
          obtain ⟨l1, l2, rfl⟩ := ih h
          exact ⟨b :: l1, l2, rfl⟩

/-- Helper: family-wide revocation never increases the number of unrevoked
rows of any family. -/
theorem countUnrevoked_familyRevoke_le (db : List RefreshTokenRow)
    (f : String) (now : Int) (g : String) :
    countUnrevokedInFamily (revokeTokenFamily db f now) g
      ≤ countUnrevokedInFamily db g := by
  unfold countUnrevokedInFamily revokeTokenFamily
  rw [List.countP_map]
  apply List.countP_mono_left
  intro r _ h
  simp only [Function.comp] at h
  unfold familyRevokeRow at h
  split at h
  · simp at h
  · exact h

/-- Helper: revoking all tokens of one user never increases the number
of unrevoked rows of any family. -/
theorem countUnrevoked_userRevoke_le (db : List RefreshTokenRow)
    (uid : String) (now : Int) (g : String) :
    countUnrevokedInFamily (revokeAllUserTokens db uid now) g
      ≤ countUnrevokedInFamily db g := by
  unfold countUnrevokedInFamily revokeAllUserTokens
  rw [List.countP_map]
  apply List.countP_mono_left
  intro r _ h
  simp only [Function.comp] at h
  unfold userRevokeRow at h
  split at h
  · simp at h
  · exact h

/-- Helper: saving a row that is revoked never increases the number of
unrevoked rows of any family. -/
theorem countUnrevoked_save_revoked_le (db : List RefreshTokenRow)
    (r : RefreshTokenRow) (hrev : r.isRevoked = true) (g : String) :
    countUnrevokedInFamily (saveExisting db r) g
      ≤ countUnrevokedInFamily db g := by
  unfold countUnrevokedInFamily saveExisting
  rw [List.countP_map]
  apply List.countP_mono_left
  intro x _ h
  simp only [Function.comp] at h
  split at h
  · rw [hrev] at h
    simp at h
  · exact h

/-- Helper: mapping the `save` replacement over rows whose key differs
from the key of the saved row is the identity. -/
theorem map_save_of_ne (l : List RefreshTokenRow) (r : RefreshTokenRow)
    (h : ∀ x ∈ l, (x.id == r.id) = false) :
    l.map (fun x => if x.id == r.id then r else x) = l := by
  induction l with
  | nil => rfl
  | cons a l ih =>
      rw [List.map_cons, if_neg (by simp [h a (List.mem_cons_self a l)]),
        ih (fun x hx => h x (List.mem_cons_of_mem a hx))]

/-- Helper: when the saved row carries the primary key of `st` and no
other row does, `save` replaces exactly the `st` position. -/
theorem saveExisting_split (l1 l2 : List RefreshTokenRow)
    (st r : RefreshTokenRow) (hid : r.id = st.id)
    (h1 : ∀ x ∈ l1, x.id ≠ st.id) (h2 : ∀ x ∈ l2, x.id ≠ st.id) :
    saveExisting (l1 ++ st :: l2) r = l1 ++ r :: l2 := by
  unfold saveExisting
  rw [List.map_append, List.map_cons, if_pos (by simp [hid])]
  rw [map_save_of_ne l1 r
    (fun x hx => beq_eq_false_iff_ne.mpr (fun he => h1 x hx (he.trans hid)))]
  rw [map_save_of_ne l2 r
    (fun x hx => beq_eq_false_iff_ne.mpr (fun he => h2 x hx (he.trans hid)))]

/-- Helper: replacing the unrevoked row `st` by its revoked copy while
appending an unrevoked successor in the same family keeps the per-family
unrevoked count of every family unchanged. -/
theorem count_rotate_eq (l1 l2 : List RefreshTokenRow)
    (st st' nr : RefreshTokenRow) (g : String)
    (hstF : st'.tokenFamily = st.tokenFamily) (hstR : st'.isRevoked = true)
    (hnrF : nr.tokenFamily = st.tokenFamily) (hnrR : nr.isRevoked = false)
    (hR : st.isRevoked = false) :
    countUnrevokedInFamily (l1 ++ st' :: (l2 ++ [nr])) g
      = countUnrevokedInFamily (l1 ++ st :: l2) g := by
  unfold countUnrevokedInFamily
  simp only [List.countP_append, List.countP_cons, hstF, hstR, hnrF, hnrR,
    hR, List.countP_nil]
  cases hfg : st.tokenFamily == g <;> simp [hfg]

/-- Helper: a successful rotation leaves the number of unrevoked rows of
EVERY family unchanged — the presented row flips to revoked in the same
call that inserts its unrevoked successor in the same family.  Requires
unique primary keys and a fresh key for the successor row. -/
theorem rotate_success_counts (hashToken : String → String)
    (db : List RefreshTokenRow) (presented : String) (now : Int)
    (freshToken : String) (freshId : Nat) (freshFamily : String)
    (ipAddress userAgent : Option String)
    (hNodup : nodupIds db)
    (hFreshId : freshId ∉ db.map (fun r => r.id))
    (tk : String)
    (hok : (refreshTokens hashToken db presented now freshToken freshId
              freshFamily ipAddress userAgent).2 = .ok tk)
    (g : String) :
    countUnrevokedInFamily
        (refreshTokens hashToken db presented now freshToken freshId
          freshFamily ipAddress userAgent).1 g
      = countUnrevokedInFamily db g := by
  unfold refreshTokens at hok ⊢
  dsimp only at hok ⊢
  rcases hf : findTokenByHash db (hashToken presented) with _ | st
  · rw [hf] at hok
  · rw [hf] at hok
    cases hrev : st.isRevoked with
    | true => simp [hrev] at hok
    | false =>
        cases hexp : st.isExpired now with
        | true => simp [hrev, hexp] at hok
        | false =>
            simp only [hrev, hexp, Bool.false_eq_true, if_false]
            unfold generateTokenPair
            dsimp only [Option.getD]
            unfold findTokenByHash at hf
            obtain ⟨l1, l2, hdb⟩ :=
              find?_split (fun r => r.tokenHash == hashToken presented) db
                st hf
            subst hdb
            unfold nodupIds at hNodup
            simp only [List.map_append, List.map_cons, List.nodup_append,
              List.nodup_cons] at hNodup
            have h1 : ∀ x ∈ l1, x.id ≠ st.id := fun x hx he =>
              hNodup.2.2 (List.mem_map_of_mem _ hx) (by simp [he])
            have h2 : ∀ x ∈ l2, x.id ≠ st.id := fun x hx he =>
              hNodup.2.1.1 (he ▸ List.mem_map_of_mem _ hx)
            have hstid : st.id ∈ (l1 ++ st :: l2).map (fun r => r.id) :=
              List.mem_map_of_mem _ (by simp)
            have hfr : freshId ≠ st.id := fun he => hFreshId (he ▸ hstid)
            set nr : RefreshTokenRow :=
              { id := freshId, tokenHash := hashToken freshToken,
                userId := st.userId,
                expiresAt := now + refreshTokenExpiryMs,
                isRevoked := false, tokenFamily := st.tokenFamily,
                replacedByToken := none, userAgent := userAgent,
                ipAddress := ipAddress, createdAt := now,
                revokedAt := none } with hnrdef
            set st' : RefreshTokenRow :=
              { id := st.id, tokenHash := st.tokenHash,
                userId := st.userId, expiresAt := st.expiresAt,
                isRevoked := true, tokenFamily := st.tokenFamily,
                replacedByToken := some (hashToken freshToken),
                userAgent := st.userAgent, ipAddress := st.ipAddress,
                createdAt := st.createdAt, revokedAt := some now }
              with hstdef
            have h2' : ∀ x ∈ l2 ++ [nr], x.id ≠ st.id := by
              intro x hx
              rcases List.mem_append.mp hx with hm | hm
              · exact h2 x hm
              · rw [List.mem_singleton] at hm
                subst hm
                intro he
                apply hfr
                rw [hnrdef] at he
                exact he
            rw [show (l1 ++ st :: l2) ++ [nr] = l1 ++ st :: (l2 ++ [nr])
              from by simp]
            rw [saveExisting_split l1 (l2 ++ [nr]) st st'
              (by rw [hstdef]) h1 h2']
            exact count_rotate_eq l1 l2 st st' nr g (by rw [hstdef])
              (by rw [hstdef]) (by rw [hnrdef]) (by rw [hnrdef]) hrev

/-- C8: per-family head uniqueness.  If the table has at most one
unrevoked row per family, unique primary keys, and the generated id and
family of the new row are fresh, then after `Issue`, after `Rotate`
(every outcome), after `Revoke`/logout, after family revocation and after
revoke-all-for-user, the table still has at most one unrevoked row per
family; moreover a successful `Rotate` leaves the unrevoked count of
EVERY family unchanged (it revokes the presented row in the same call
that inserts its successor). -/
theorem head_uniqueness_preserved (hashToken : String → String)
    (db : List RefreshTokenRow) (uid presented tok fam : String)
    (now : Int) (freshToken freshFamily : String) (freshId : Nat)
    (ipAddress userAgent : Option String)
    (hInv : headUnique db) (hNodup : nodupIds db)
    (hFreshId : freshId ∉ db.map (fun r => r.id))
    (hFreshFam : countUnrevokedInFamily db freshFamily = 0) :
    headUnique (issueToken hashToken db uid now freshToken freshId
      freshFamily ipAddress userAgent).1
    ∧ headUnique (refreshTokens hashToken db presented now freshToken
        freshId freshFamily ipAddress userAgent).1
    ∧ (∀ tk, (refreshTokens hashToken db presented now freshToken freshId
          freshFamily ipAddress userAgent).2 = .ok tk →
        ∀ g, countUnrevokedInFamily
            (refreshTokens hashToken db presented now freshToken freshId
              freshFamily ipAddress userAgent).1 g
          = countUnrevokedInFamily db g)
    ∧ headUnique (logout hashToken db tok now)
    ∧ headUnique (revokeTokenFamily db fam now)
    ∧ headUnique (revokeAllUserTokens db uid now) := by
  refine ⟨?_, ?_, ?_, ?_, ?_, ?_⟩
  · -- Issue appends one unrevoked row in the fresh (empty) family
    intro g
    unfold issueToken generateTokenPair
    dsimp only [Option.getD]
    unfold countUnrevokedInFamily at hFreshFam ⊢
    rw [List.countP_append]
    cases hfg : freshFamily == g with
    | true =>
        have hg : freshFamily = g := eq_of_beq hfg
        subst hg
        simp [List.countP_cons, hFreshFam]
    | false =>
        simp only [List.countP_cons, List.countP_nil, Bool.not_false,
          Bool.and_true, hfg, Bool.false_eq_true, if_false, Nat.add_zero,
          Nat.zero_add]
        exact hInv g
  · -- Rotate preserves the invariant on every path
    rcases hf : findTokenByHash db (hashToken presented) with _ | st
    · have he : (refreshTokens hashToken db presented now freshToken
          freshId freshFamily ipAddress userAgent).1 = db := by
        unfold refreshTokens
        dsimp only
        rw [hf]
      rw [he]
      exact hInv
    · cases hrev : st.isRevoked with
      | true =>
          have he : (refreshTokens hashToken db presented now freshToken
              freshId freshFamily ipAddress userAgent).1
              = revokeTokenFamily db st.tokenFamily now := by
            unfold refreshTokens
            dsimp only
            rw [hf]
            simp [hrev]
          rw [he]
          intro g
          exact le_trans
            (countUnrevoked_familyRevoke_le db st.tokenFamily now g)
            (hInv g)
      | false =>
          cases hexp : st.isExpired now with
          | true =>
              have he : (refreshTokens hashToken db presented now
                  freshToken freshId freshFamily ipAddress userAgent).1
                  = db := by
                unfold refreshTokens
                dsimp only
                rw [hf]
                simp [hrev, hexp]
              rw [he]
              exact hInv
          | false =>
              have hok : (refreshTokens hashToken db presented now
                  freshToken freshId freshFamily ipAddress userAgent).2
                  = .ok freshToken := by
                unfold refreshTokens
                dsimp only
                rw [hf]
                simp [hrev, hexp, generateTokenPair]
              intro g
              rw [rotate_success_counts hashToken db presented now
                freshToken freshId freshFamily ipAddress userAgent hNodup
                hFreshId freshToken hok g]
              exact hInv g
  · -- successful Rotate changes no per-family count
    intro tk hok g
    exact rotate_success_counts hashToken db presented now freshToken
      freshId freshFamily ipAddress userAgent hNodup hFreshId tk hok g
  · -- logout revokes at most one row
    unfold logout
    rcases hf : findTokenByHash db (hashToken tok) with _ | st
    · exact hInv
    · intro g
      exact le_trans (countUnrevoked_save_revoked_le db _ rfl g) (hInv g)
  · intro g
    exact le_trans (countUnrevoked_familyRevoke_le db fam now g) (hInv g)
  · intro g
    exact le_trans (countUnrevoked_userRevoke_le db uid now g) (hInv g)

/-- Witness for C8: a table holding one live token; the rotation presented
`"t0"` succeeds, and all hypotheses hold concretely. -/
theorem head_uniqueness_preserved_witness :
    (headUnique [sampleValidRow] ∧ nodupIds [sampleValidRow]
      ∧ 9 ∉ [sampleValidRow].map (fun r => r.id)
      ∧ countUnrevokedInFamily [sampleValidRow] "famZ" = 0)
    ∧ (headUnique (issueToken testHash [sampleValidRow] "u1" 1000 "t9" 9
          "famZ" none none).1
       ∧ headUnique (refreshTokens testHash [sampleValidRow] "t0" 1000
           "t9" 9 "famZ" none none).1
       ∧ (∀ tk, (refreshTokens testHash [sampleValidRow] "t0" 1000 "t9" 9
             "famZ" none none).2 = .ok tk →
           ∀ g, countUnrevokedInFamily
               (refreshTokens testHash [sampleValidRow] "t0" 1000 "t9" 9
                 "famZ" none none).1 g
             = countUnrevokedInFamily [sampleValidRow] g)
       ∧ headUnique (logout testHash [sampleValidRow] "t0" 1000)
       ∧ headUnique (revokeTokenFamily [sampleValidRow] "famF" 1000)
       ∧ headUnique (revokeAllUserTokens [sampleValidRow] "u1" 1000)) := by
  have hInv0 : headUnique [sampleValidRow] := by
    intro f
    unfold countUnrevokedInFamily
    exact le_trans (List.countP_le_length _) (by simp)
  have hnd : nodupIds [sampleValidRow] := by
    unfold nodupIds
    decide
  exact ⟨⟨hInv0, hnd, by decide, by decide⟩,
    head_uniqueness_preserved testHash [sampleValidRow] "u1" "t0" "t0"
      "famF" 1000 "t9" "famZ" 9 none none hInv0 hnd (by decide)
      (by decide)⟩

/-- C10: family-wide revocation and revoke-all-for-user are row maps whose
transformer touches only rows with `isRevoked = false`; a row already
revoked is returned unchanged (its `revokedAt` and every other field are
kept), and even on rows it does revoke the transformer changes nothing
but `isRevoked` and `revokedAt`. -/
theorem revocation_updates_only_unrevoked (db : List RefreshTokenRow)
    (fam uid : String) (now : Int) :
    revokeTokenFamily db fam now = db.map (familyRevokeRow fam now)
    ∧ revokeAllUserTokens db uid now = db.map (userRevokeRow uid now)
    ∧ ∀ r : RefreshTokenRow,
        (r.isRevoked = true →
          familyRevokeRow fam now r = r ∧ userRevokeRow uid now r = r)
        ∧ ((familyRevokeRow fam now r).id = r.id
           ∧ (familyRevokeRow fam now r).tokenHash = r.tokenHash
           ∧ (familyRevokeRow fam now r).userId = r.userId
           ∧ (familyRevokeRow fam now r).expiresAt = r.expiresAt
           ∧ (familyRevokeRow fam now r).tokenFamily = r.tokenFamily
           ∧ (familyRevokeRow fam now r).replacedByToken
               = r.replacedByToken
           ∧ (familyRevokeRow fam now r).userAgent = r.userAgent
           ∧ (familyRevokeRow fam now r).ipAddress = r.ipAddress
           ∧ (familyRevokeRow fam now r).createdAt = r.createdAt)
        ∧ ((userRevokeRow uid now r).id = r.id
           ∧ (userRevokeRow uid now r).tokenHash = r.tokenHash
           ∧ (userRevokeRow uid now r).userId = r.userId
           ∧ (userRevokeRow uid now r).expiresAt = r.expiresAt
           ∧ (userRevokeRow uid now r).tokenFamily = r.tokenFamily
           ∧ (userRevokeRow uid now r).replacedByToken = r.replacedByToken
           ∧ (userRevokeRow uid now r).userAgent = r.userAgent
           ∧ (userRevokeRow uid now r).ipAddress = r.ipAddress
           ∧ (userRevokeRow uid now r).createdAt = r.createdAt) := by
  refine ⟨rfl, rfl, fun r => ⟨?_, ?_, ?_⟩⟩
  · intro h
    constructor
    · simp [familyRevokeRow, h]
    · simp [userRevokeRow, h]
  · unfold familyRevokeRow
    split <;> simp
  · unfold userRevokeRow
    split <;> simp

/-- Witness for C10: an already-revoked row passes through both
revocation sweeps untouched. -/
theorem revocation_updates_only_unrevoked_witness :
    sampleRevokedRow.isRevoked = true
    ∧ familyRevokeRow "famF" 99 sampleRevokedRow = sampleRevokedRow
    ∧ userRevokeRow "u1" 99 sampleRevokedRow = sampleRevokedRow :=
  ⟨rfl,
   (((revocation_updates_only_unrevoked [] "famF" "u1" 99).2.2
       sampleRevokedRow).1 rfl).1,
   (((revocation_updates_only_unrevoked [] "famF" "u1" 99).2.2
       sampleRevokedRow).1 rfl).2⟩
